import Mathlib

/-!
# A shallow embedding of the Alu bytecode virtual machine (src/alu.c)

This file embeds the core of the Alu VM — the typed value model, the operand
stack, the register bank, the decoder (`Alu_feed`), the jump machinery
(`Alu_jump`) and the interpreter (`Alu_execute`) — as executable Lean
definitions, translated from `src/alu.c` (the current revision; the older
revision in `src/unnamed/part_000` differs only where noted).

Modelling conventions:
* C `double` values are modelled as exact dyadic rationals (`Dyad`): every
  finite IEEE-754 double is `n / 2^e` for an integer `n` and natural `e`.
  Arithmetic on `Dyad` is exact; in every concrete computation appearing in a
  theorem below each intermediate IEEE operation is itself exact (the operands
  and results are representable), so the exact model agrees with the hardware
  behaviour there.  Rounding of inexact operations is not modelled.
* Machine integer casts (`(short)`, `(int)`, `(int8_t)`, `(size_t)` applied to
  a double) are modelled as truncation toward zero followed by two's-complement
  wrapping, the behaviour of the reference platform (gcc on x86-64); ISO C
  leaves the out-of-range cases undefined.
* C strings are byte lists (`List ℕ`), without the terminating NUL.
* `malloc` is assumed to succeed; allocation-failure paths (`NOMEM`, `errno =
  ENOMEM`) are not modelled.  The SIGINT flag is never set.
* The `raise` macro of `alu.c` prints a diagnostic and returns from the current
  handler; it neither stops execution nor records anything in the state.  The
  model returns the raised error code alongside the new state, and the
  interpreter collects the codes in a list; this is a pure log of diagnostics.
* Operations whose C behaviour is undefined in a way the embedding cannot
  express (out-of-bounds reads of the opcode table, type-punning reads,
  dereferencing the NULL result of a failed lookup, wall-clock waiting) are
  mapped to `none` in an `Option` result.
-/

namespace Alu

/-! ## Dyadic rationals: the value domain of C doubles -/

/-- An exact dyadic rational `n / 2^e`.  Every finite IEEE-754 double has this
form.  The representation is not normalised; `Dyad.val` gives its value. -/
structure Dyad where
  n : ℤ
  e : ℕ
deriving DecidableEq

/-- Specification-level value of a dyadic rational. -/
def Dyad.val (d : Dyad) : ℚ := (d.n : ℚ) / 2 ^ d.e

/-- Exact sum of two dyadic rationals (C double addition; exact whenever the
IEEE-754 result is representable, which holds in every use below). -/
def dyadAdd (a b : Dyad) : Dyad := ⟨a.n * 2 ^ b.e + b.n * 2 ^ a.e, a.e + b.e⟩

/-- Exact difference of two dyadic rationals. -/
def dyadSub (a b : Dyad) : Dyad := ⟨a.n * 2 ^ b.e - b.n * 2 ^ a.e, a.e + b.e⟩

/-- Subtract an integer from a dyadic rational (exponent preserved). -/
def dyadSubInt (a : Dyad) (k : ℤ) : Dyad := ⟨a.n - k * 2 ^ a.e, a.e⟩

/-- Multiply a dyadic rational by ten (`num *= 10`). -/
def dyadMul10 (a : Dyad) : Dyad := ⟨a.n * 10, a.e⟩

/-- Truncation of a dyadic rational toward zero, the C `(integer)double`
conversion before any width wrapping. -/
def dyadTrunc (d : Dyad) : ℤ :=
  if d.n < 0 then -((d.n.natAbs / 2 ^ d.e : ℕ) : ℤ) else ((d.n.natAbs / 2 ^ d.e : ℕ) : ℤ)

/-- Two's-complement wrap of an integer into `w` bits, the observed behaviour
of narrowing integer conversions on the reference platform. -/
def wrapInt (w : ℕ) (x : ℤ) : ℤ := (x + 2 ^ (w - 1)) % 2 ^ w - 2 ^ (w - 1)

/-- C `(short)num` for a double `num` (gcc/x86-64 behaviour). -/
def cShort (d : Dyad) : ℤ := wrapInt 16 (dyadTrunc d)

/-- C `(int)num` for a double `num` (gcc/x86-64 behaviour). -/
def cIntOfDouble (d : Dyad) : ℤ := wrapInt 32 (dyadTrunc d)

/-- C `(int8_t)num` for a double `num` (gcc/x86-64 behaviour); this is the
conversion `Alu_eval` applies to `a - b`. -/
def cInt8OfDouble (d : Dyad) : ℤ := wrapInt 8 (dyadTrunc d)

/-- C `(size_t)num` for a non-negative double `num` (the only case the source
exercises; the negative case is undefined in C). -/
def cSizeT (d : Dyad) : ℕ := (dyadTrunc d).toNat

/-! ## Byte-level readers (`bytesint`, `bytesdouble`) -/

/-- `bytesint` (src/alu.c:275): big-endian read of 4 bytes into a signed
32-bit `int`. -/
def bytesint (b : List ℕ) : ℤ :=
  let raw : ℕ := (b.take 4).foldl (fun a x => a * 256 + x % 256) 0
  if raw < 2 ^ 31 then (raw : ℤ) else (raw : ℤ) - 2 ^ 32

/-- The `(alu_Size)` cast applied to `bytesint`'s result by the dispatcher:
conversion of a signed `int` to `uint32_t`. -/
def u32ofInt (x : ℤ) : ℕ := (x % 2 ^ 32).toNat

/-- Big-endian read of 8 bytes into a `uint64_t` (the loop in `bytesdouble`,
src/alu.c:284). -/
def bytesU64 (b : List ℕ) : ℕ := (b.take 8).foldl (fun a x => a * 256 + x % 256) 0

/-- Value of the IEEE-754 double with bit pattern `u` (finite cases; the
infinity/NaN exponent 0x7FF is not used by any claim). -/
def doubleOfBits (u : ℕ) : Dyad :=
  let s : ℕ := u / 2 ^ 63
  let ebits : ℕ := (u / 2 ^ 52) % 2 ^ 11
  let m : ℕ := u % 2 ^ 52
  let mag : Dyad :=
    if ebits = 0 then ⟨Int.ofNat m, 1074⟩
    else if 1075 ≤ ebits then ⟨Int.ofNat ((2 ^ 52 + m) * 2 ^ (ebits - 1075)), 0⟩
    else ⟨Int.ofNat (2 ^ 52 + m), 1075 - ebits⟩
  if s = 0 then mag else ⟨-mag.n, mag.e⟩

/-- `bytesdouble` (src/alu.c:284): big-endian read of 8 bytes as the bit
pattern of an IEEE-754 double. -/
def bytesdouble (b : List ℕ) : Dyad := doubleOfBits (bytesU64 b)

/-! ## Values, errors, state -/

/-- Identity of an entry of the built-in `DEF` table (src/alu.c:244). -/
inductive AluDef where
  | print
  | wait
deriving DecidableEq

/-- A variable payload together with its tag (`alu_Variable`).  `ALU_NULL` and
`ALU_INST` never appear on the stack (`Alu_newvariable` rejects `ALU_NULL` and
no opcode produces `ALU_INST`), so this type carries the four inhabited tags. -/
inductive AluValue where
  | num (d : Dyad)
  | str (s : List ℕ)
  | bool (b : Bool)
  | abstract (f : AluDef)
deriving DecidableEq

/-- The `alu_Type` tag of a value. -/
inductive AluType where
  | tNull
  | tNumber
  | tString
  | tBool
  | tAbstract
  | tInst
deriving DecidableEq

/-- Tag of a stack value. -/
def AluValue.typeOf : AluValue → AluType
  | .num _ => .tNumber
  | .str _ => .tString
  | .bool _ => .tBool
  | .abstract _ => .tAbstract

/-- `alu_Errno` (src/alu.c:68). -/
inductive AluErr where
  | IDK
  | NOMEM
  | STKLN
  | NOREG
  | NOSTK
  | NOFND
  | TYPES
  | OUTJM
  | NOFIL
  | CREAD
  | CSTAT
deriving DecidableEq

/-- A register-bank entry (`alu_Register`): an index and an owned variable.
The variable pointer may be NULL (modelled by `none`): `Alu_load` stores the
result of `Alu_cpyvar`, which returns NULL for payload-free tags. -/
structure AluReg where
  index : ℕ
  var : Option AluValue
deriving DecidableEq

/-- The mutable VM state (`alu_State`), minus the instruction list (passed
separately to the interpreter) and the seed/verbose fields (no claim depends
on them; verbose is 0, so `debug` prints nothing). -/
structure AluState where
  error : Option (List ℕ)
  stack : List AluValue
  garbage : List AluValue
  regs : List AluReg
deriving DecidableEq

/-- `Alu_newstate` (src/alu.c:860): a zeroed state. -/
def Alu_newstate : AluState := ⟨none, [], [], []⟩

/-! ## The operand stack

`alu_Stack` is a doubly-linked list whose head node also caches a `top`
pointer to the far end.  `Stack_push` (src/alu.c:316) appends the new node at
the `top` end, while `Alu_popk`/`Alu_pop`/`Alu_get` operate from the head:
with the head as list head, a push is an append at the tail.  (The `top`
pointer of a node that becomes head through `Alu_popk`/`Alu_pop` is stale; the
model assumes the head's `top` pointer is accurate, which holds throughout
every execution considered here.) -/

/-- `Stack_push` (src/alu.c:316): append `x` at the `top` end of the list. -/
def Stack_push {α : Type} (stack : List α) (x : α) : List α := stack ++ [x]

/-- `Stack_len` (src/alu.c:333). -/
def Stack_len {α : Type} (stack : List α) : ℕ := stack.length

/-- `Alu_get` (src/alu.c:655): walk `index` links from the head; NULL (here
`none`, after a printed `NOSTK` diagnostic) if the walk leaves the list. -/
def Alu_get (s : AluState) (index : ℕ) : Option AluValue := s.stack.get? index

/-- `Alu_popk` (src/alu.c:557): drop the head of the stack, freeing its
payload.  A no-op on an empty stack. -/
def Alu_popk (s : AluState) : AluState := { s with stack := s.stack.tail }

/-- `Alu_stackclose` (src/alu.c:574): pop-and-free until empty. -/
def Alu_stackclose (s : AluState) : AluState := { s with stack := [] }

/-- `Alu_pop` (src/alu.c:640): detach the head, park its variable on the
garbage list, and return it (`none` on an empty stack). -/
def Alu_pop (s : AluState) : AluState × Option AluValue :=
  match s.stack with
  | [] => (s, none)
  | v :: rest => ({ s with stack := rest, garbage := Stack_push s.garbage v }, some v)

/-- `Alu_push` (src/alu.c:582) together with `Alu_newvariable`: push an owned
copy of a value.  `Alu_pushnumber`, `Alu_pushbool`, `Alu_pushstring` and
`Alu_pushabstract` all reduce to this. -/
def Alu_push (s : AluState) (v : AluValue) : AluState :=
  { s with stack := Stack_push s.stack v }

/-- `Alu_pushnumber` (src/alu.c:604). -/
def Alu_pushnumber (s : AluState) (num : Dyad) : AluState := Alu_push s (.num num)

/-- `Alu_pushbool` (src/alu.c:610). -/
def Alu_pushbool (s : AluState) (b : Bool) : AluState := Alu_push s (.bool b)

/-- `Alu_pushstring` (src/alu.c:616). -/
def Alu_pushstring (s : AluState) (str : List ℕ) : AluState := Alu_push s (.str str)

/-- `Alu_pushabstract` (src/alu.c:622). -/
def Alu_pushabstract (s : AluState) (f : AluDef) : AluState := Alu_push s (.abstract f)

/-- Byte string of an ASCII literal, for readable statements. -/
def strBytes (s : String) : List ℕ := s.data.map Char.toNat

/-- `Alu_pushdef` (src/alu.c:631): linear scan of the static `DEF` table by
`strcmp`; raises `NOFND` for an unknown name. -/
def Alu_pushdef (s : AluState) (name : List ℕ) : AluState × Option AluErr :=
  if name = strBytes "print" then (Alu_pushabstract s .print, none)
  else if name = strBytes "wait" then (Alu_pushabstract s .wait, none)
  else (s, some .NOFND)

/-- `Alu_cpyvar` (src/alu.c:534): deep copy.  For a tag whose payload size is
zero and which is not `ALU_STRING` (i.e. `ALU_NULL`, `ALU_ABSTRACT`,
`ALU_INST`) the function returns NULL (`none`). -/
def Alu_cpyvar : AluValue → Option AluValue
  | .num d => some (.num d)
  | .bool b => some (.bool b)
  | .str s => some (.str s)
  | .abstract _ => none

/-- `Alu_super` (src/alu.c:1182): with fewer than two items raise `STKLN`;
otherwise detach the node at the `top` end (the last-pushed element) and make
it the new head, preserving the order of the rest. -/
def Alu_super (s : AluState) : AluState × Option AluErr :=
  if s.stack.length < 2 then (s, some .STKLN)
  else ({ s with stack := s.stack.getLast?.toList ++ s.stack.dropLast }, none)

/-! ## SUMSTACK -/

/-- `Alu_sumvar` (src/alu.c:697), on two same-tag variables.  Number: double
sum.  Bool: `_Bool` cast of the byte sum (non-zero becomes true).  String:
concatenation `a` then `b`.  Other tags return NULL (`none`); `Alu_sumstack`
then pushes a `malloc(0)` payload whose contents are unspecified, so the model
stops there. -/
def Alu_sumvar : AluValue → AluValue → Option AluValue
  | .num x, .num y => some (.num (dyadAdd x y))
  | .bool x, .bool y => some (.bool (decide (x.toNat + y.toNat ≠ 0)))
  | .str x, .str y => some (.str (x ++ y))
  | _, _ => none

/-- `Alu_sumstack` (src/alu.c:729): with fewer than two stack items raise
`STKLN` and change nothing; with mismatched tags raise `TYPES` and change
nothing; otherwise compute the sum of `peek(0)` and `peek(1)`, clear the whole
stack, and push the single result. -/
def Alu_sumstack (s : AluState) : Option (AluState × Option AluErr) :=
  match s.stack with
  | a :: b :: _ =>
    if a.typeOf ≠ b.typeOf then some (s, some .TYPES)
    else
      match Alu_sumvar a b with
      | some v => some (Alu_push (Alu_stackclose s) v, none)
      | none => none
  | _ => some (s, some .STKLN)

/-! ## Register bank -/

/-- The register-replacement scan inside `Alu_load` (src/alu.c:785): find the
first register with the given index and overwrite its variable (the old one is
freed); `none` if no register matches. -/
def replaceFirstReg : List AluReg → ℕ → Option AluValue → Option (List AluReg)
  | [], _, _ => none
  | r :: rs, k, v =>
    if r.index = k then some ({ r with var := v } :: rs)
    else (replaceFirstReg rs k v).map (r :: ·)

/-- `Alu_load` (src/alu.c:776): copy `peek(0)` (NULL for payload-free tags),
clear the stack, then store the copy in register `k` — replacing the first
matching register, or appending a fresh one at the `top` end. -/
def Alu_load (s : AluState) (registerIndex : ℕ) : AluState × Option AluErr :=
  match s.stack with
  | [] => (s, some .STKLN)
  | top :: _ =>
    match replaceFirstReg s.regs registerIndex (Alu_cpyvar top) with
    | some regs1 => ({ s with stack := [], regs := regs1 }, none)
    | none =>
      ({ s with stack := [], regs := Stack_push s.regs ⟨registerIndex, Alu_cpyvar top⟩ }, none)

/-- `Alu_unload` (src/alu.c:808): find the first register with the given
index; if absent, or present with a NULL variable, raise `NOREG`; otherwise
push a deep copy of its variable.  If the copy itself were NULL the C code
would push a NULL payload whose later use is undefined; registers filled by
`Alu_load` never hold an `Abstract`, so this `none` case is unreachable in the
runs considered. -/
def Alu_unload (s : AluState) (registerIndex : ℕ) : Option (AluState × Option AluErr) :=
  match (s.regs.find? (fun r => r.index = registerIndex)).bind (·.var) with
  | none => some (s, some .NOREG)
  | some v =>
    match Alu_cpyvar v with
    | some c => some ({ s with stack := Stack_push s.stack c }, none)
    | none => none

/-- `Alu_defunload` (src/alu.c:827): find the first register with the given
index; if absent or NULL-valued, raise `NOREG`; otherwise push its variable
(without copying) and then unlink and free the HEAD of the register list —
which is the matching register only when the match is at the head. -/
def Alu_defunload (s : AluState) (registerIndex : ℕ) : AluState × Option AluErr :=
  match (s.regs.find? (fun r => r.index = registerIndex)).bind (·.var) with
  | none => (s, some .NOREG)
  | some v => ({ s with stack := Stack_push s.stack v, regs := s.regs.tail }, none)

/-! ## EVAL -/

/-- Byte difference at the first mismatch, the glibc behaviour of `strcmp`
(ISO C guarantees only the sign).  The end of a C string reads as byte 0. -/
def strcmpInt : List ℕ → List ℕ → ℤ
  | [], [] => 0
  | [], y :: _ => -(Int.ofNat (y % 256))
  | x :: _, [] => Int.ofNat (x % 256)
  | x :: xs, y :: ys =>
    if x % 256 = y % 256 then strcmpInt xs ys
    else Int.ofNat (x % 256) - Int.ofNat (y % 256)

/-- The mask `ev` built by `Alu_eval` (src/alu.c:943) from the 8-bit `cmpres`:
`EVAL_EQUALS` (1) if zero, `EVAL_SMALLER` (2) if negative, `EVAL_GREATER` (4)
if positive. -/
def evalMask (cmpres : ℤ) : ℕ :=
  (if cmpres = 0 then 1 else 0) |||
    (if cmpres < 0 then 2 else if 0 < cmpres then 4 else 0)

/-- `Alu_eval` (src/alu.c:924).  With an empty stack raise `STKLN` and change
nothing.  With exactly one item, `Alu_get(A,1)` returns NULL (after a `NOSTK`
diagnostic) and the subsequent `b->type` dereference is undefined (`none`).
With mismatched tags, clear the stack and push Bool false.  Otherwise compute
`cmpres`: for strings the `int8_t` wrap of `strcmp`; for Numbers the `int8_t`
conversion of the double difference `a - b` — NOT its true sign, so
differences that are multiples of 256 alias to equality.  For Bool (and
Abstract) operands the source reads 8 bytes through `(alu_Number *)` from a
smaller payload, which is undefined (`none`).  Finally clear the stack and
push Bool of `ev & eval ≠ 0`. -/
def Alu_eval (s : AluState) (eval : ℕ) : Option (AluState × Option AluErr) :=
  match s.stack with
  | [] => some (s, some .STKLN)
  | [_] => none
  | a :: b :: _ =>
    if a.typeOf ≠ b.typeOf then some (Alu_pushbool (Alu_stackclose s) false, none)
    else
      match a, b with
      | .str x, .str y =>
        let cmpres := wrapInt 8 (strcmpInt x y)
        some (Alu_pushbool (Alu_stackclose s) (decide (evalMask cmpres &&& eval ≠ 0)), none)
      | .num x, .num y =>
        let cmpres := cInt8OfDouble (dyadSub x y)
        some (Alu_pushbool (Alu_stackclose s) (decide (evalMask cmpres &&& eval ≠ 0)), none)
      | _, _ => none

/-! ## Number-to-string conversion (`__Alu_ntoa`) -/

/-- The digit-emission loop of `__Alu_ntoa_fillbuf` (src/alu.c:440): decimal
digits of `n`, least significant first, and nothing at all for `n = 0`.  The
first argument is fuel; `n` itself always suffices. -/
def cDigitsLSB : ℕ → ℕ → List ℕ
  | 0, _ => []
  | _ + 1, 0 => []
  | fuel + 1, n => (48 + n % 10) :: cDigitsLSB fuel (n / 10)

/-- The digit-count loops of `__Alu_ntoa_infos` (`for (n = ...; n > 0; n /= 10)`). -/
def cDigitCount (n : ℕ) : ℕ := (cDigitsLSB n n).length

/-- One pass of the fraction loop of `__Alu_ntoa_infos` (src/alu.c:469):
body `num -= (short)num`, then the comma expression
`part[2] *= ((!(int)(num * 10)) ? 1 : 10), part[2] += (num *= 10)`. -/
def ntoaFracStep (st : Dyad × ℕ) : Dyad × ℕ :=
  let num := dyadSubInt st.1 (cShort st.1)
  let d := cIntOfDouble (dyadMul10 num)
  let p2a := st.2 * (if d = 0 then 1 else 10)
  let num2 := dyadMul10 num
  (num2, p2a + cSizeT num2)

/-- Iterate the fraction loop `precision` times. -/
def ntoaFracLoop : ℕ → Dyad × ℕ → Dyad × ℕ
  | 0, st => st
  | k + 1, st => ntoaFracLoop k (ntoaFracStep st)

/-- `__Alu_ntoa_infos` (src/alu.c:459): `(total, int, fract, signed)`. -/
def ntoaInfos (num0 : Dyad) (precision : ℕ) : ℕ × ℕ × ℕ × ℕ :=
  let neg : Bool := num0.n < 0
  let p3 : ℕ := if neg then 1 else 0
  let num : Dyad := if neg then ⟨-num0.n, num0.e⟩ else num0
  let p1 : ℕ := cSizeT num
  let num1 : Dyad := dyadSubInt num (cShort num)
  let p2 : ℕ := (ntoaFracLoop precision (num1, 0)).2
  (p3 + cDigitCount p1 + (if p2 ≠ 0 then 1 else 0) + cDigitCount p2, p1, p2, p3)

/-- `__Alu_ntoa_fillbuf` (src/alu.c:440): fraction digits (LSB first), a dot
when the fraction part is non-zero, integer digits (LSB first), a minus sign
when negative, all reversed. -/
def ntoaFill (p1 p2 p3 : ℕ) : List ℕ :=
  ((if p2 ≠ 0 then cDigitsLSB p2 p2 ++ [46] else []) ++ cDigitsLSB p1 p1 ++
    (if p3 ≠ 0 then [45] else [])).reverse

/-- `__Alu_ntoa` (src/alu.c:479): the string printed for a Number. -/
def ntoa (d : Dyad) : List ℕ :=
  let infos := ntoaInfos d 6
  ntoaFill infos.2.1 infos.2.2.1 infos.2.2.2

/-- `Alu_vartostring` via the `CONVERT_STRING` table (src/alu.c:231): Number
through `__Alu_ntoa`, Bool through `__Alu_btoa`, String unchanged.  An
Abstract prints its heap address (`__Alu_abstracttoa`), which is not a
function of the model state (`none`). -/
def Alu_vartostring : AluValue → Option (List ℕ)
  | .num d => some (ntoa d)
  | .bool b => some (if b then strBytes "true" else strBytes "false")
  | .str s => some s
  | .abstract _ => none

/-! ## Built-ins, CALL, close -/

/-- The loop of `Alu_print` (src/alu.c:1141) over the stack, head first: each
variable is converted to a string and written with `puts` (which appends a
newline); each element of the result is one output line. -/
def printLoop : List AluValue → Option (List (List ℕ))
  | [] => some []
  | v :: rest =>
    match Alu_vartostring v with
    | none => none
    | some line => (printLoop rest).map (line :: ·)

/-- `Alu_print` (src/alu.c:1141): print and `Alu_popk` every stack entry,
leaving the stack empty. -/
def Alu_print (s : AluState) : Option (AluState × List (List ℕ)) :=
  (printLoop s.stack).map (fun outs => ({ s with stack := [] }, outs))

/-- `Alu_call` (src/alu.c:1165).  On an empty stack raise `NOSTK` and do
nothing else.  Otherwise `Alu_pop` the head (into the garbage list); if it is
an Abstract, invoke it (`print` runs `Alu_print`; `wait` is invoked through a
mismatched prototype and busy-waits on the wall clock, not modelled); for any
other tag raise `TYPES` (the head stays popped). -/
def Alu_call (s : AluState) : Option (AluState × List (List ℕ) × Option AluErr) :=
  match s.stack with
  | [] => some (s, [], some .NOSTK)
  | .abstract .print :: rest =>
    Option.map (fun r => (r.1, r.2, none))
      (Alu_print { s with stack := rest, garbage := Stack_push s.garbage (.abstract .print) })
  | .abstract .wait :: _ => none
  | v :: rest => some ({ s with stack := rest, garbage := Stack_push s.garbage v }, [], some .TYPES)

/-- `Alu_close` (src/alu.c:903): status 1 for a NULL state; otherwise 1 when
the state's `error` field is set (it is then printed to stderr) and 0 when it
is not.  No VM operation ever assigns the `error` field. -/
def Alu_close : Option AluState → ℕ
  | none => 1
  | some s => if s.error.isSome then 1 else 0

/-! ## Decoder (`__Alu_readop`, `Alu_feed`) -/

/-- The `argument` column of the static opcode table `F` (src/alu.c:209).
The table is sized by its largest designated initializer, `[OP_UNLOAD] =
0x11`; entries not listed are zero-initialised (argument 0), and reading
`F[op]` for `op ≥ 0x12` (`OP_DEFUNLOAD`, `OP_END`, ...) is out of bounds
(`none`). -/
def F_argument (op : ℕ) : Option ℕ :=
  if op ≤ 0x11 then
    some
      (if op = 0x07 then 2
       else if op = 0x08 then 3
       else if op = 0x09 then 4
       else if op = 0x0A then 3
       else if op = 0x0D then 4
       else if op = 0x10 then 1
       else if op = 0x11 then 1
       else 0)
  else none

/-- Index of the first NUL byte of a buffer; `none` when the buffer ends
first (the C scan would then read past the buffer). -/
def nulScan : List ℕ → Option ℕ
  | [] => none
  | b :: rest => if b % 256 = 0 then some 0 else (nulScan rest).map (· + 1)

/-- `__Alu_readop` (src/alu.c:951): operand width of an opcode.  Jumps
(0x02–0x06) take 4 bytes regardless of the table; otherwise the width is
selected by `F[op].argument`: 1 → 4 bytes (u32), 2 → 8 bytes (double), 3 →
scan from the opcode byte to the first NUL, 4 → 1 byte, else 0.  `ptr` is the
buffer starting at the opcode byte. -/
def __Alu_readop (op : ℕ) (ptr : List ℕ) : Option ℕ :=
  if 2 ≤ op ∧ op ≤ 6 then some 4
  else
    match F_argument op with
    | none => none
    | some 1 => some 4
    | some 2 => some 8
    | some 3 => nulScan ptr
    | some 4 => some 1
    | some _ => some 0

/-- The loop of `Alu_feed` (src/alu.c:974): read the opcode byte; stop when it
is `OP_HALT` (0) or strictly greater than `OP_END` (0x13); otherwise copy
`readlen + 1` bytes into a fresh record and continue after them.  `none`
marks behaviour the C leaves undefined (an out-of-bounds `F` read for opcodes
0x12/0x13, or a scan running off the buffer).  The fuel is at least the buffer
length plus one, which the recursion never exhausts. -/
def feedLoop : ℕ → List ℕ → Option (List (List ℕ))
  | 0, _ => none
  | _ + 1, [] => some []
  | fuel + 1, b :: rest =>
    let op := b % 256
    if op = 0 ∨ 0x13 < op then some []
    else
      match __Alu_readop op (b :: rest) with
      | none => none
      | some readlen =>
        if readlen + 1 ≤ (b :: rest).length then
          (feedLoop fuel (List.drop (readlen + 1) (b :: rest))).map
            (List.take (readlen + 1) (b :: rest) :: ·)
        else none

/-- `Alu_feed` (src/alu.c:974): decode a raw buffer into instruction records. -/
def Alu_feed (ptr : List ℕ) : Option (List (List ℕ)) := feedLoop (ptr.length + 1) ptr

/-! ## Jumps -/

/-- `__Alu_needtojump` (src/alu.c:1028): JMP always jumps; with an empty stack
JEM jumps and every other conditional falls through; with a non-empty stack
JFA/JTR test that the head is a Bool with the matching value, and every other
opcode in the jump range (including JEM and JNEM) jumps. -/
def __Alu_needtojump (s : AluState) (op : ℕ) : Bool :=
  if op = 2 then true
  else
    match s.stack with
    | [] => op = 5
    | v :: _ =>
      if op = 4 then (match v with | .bool b => !b | _ => false)
      else if op = 3 then (match v with | .bool b => b | _ => false)
      else true

/-- The forward walk of `Alu_jump`: `for (; jumps-- and (*iptr != null);
*iptr = (*iptr)->next)`.  The cursor is an index into the record list; `none`
is the NULL pointer past either end. -/
def jumpFwd (len : ℕ) : ℕ → Option ℕ → Option ℕ
  | 0, c => c
  | _ + 1, none => none
  | k + 1, some i => jumpFwd len k (if i + 1 < len then some (i + 1) else none)

/-- The backward walk of `Alu_jump`: `for (; jumps++ and (*iptr != null);
*iptr = (*iptr)->previous)`. -/
def jumpBwd : ℕ → Option ℕ → Option ℕ
  | 0, c => c
  | _ + 1, none => none
  | k + 1, some i => jumpBwd k (if i = 0 then none else some (i - 1))

/-- Result of `Alu_jump`: the new cursor, the new state, and the raised
error, if any. -/
structure JumpRes where
  cursor : Option ℕ
  state : AluState
  err : Option AluErr
deriving DecidableEq

/-- `Alu_jump` (src/alu.c:1051).  If the predicate fails: advance one link and
`Alu_popk` the condition.  If it holds: read the signed 32-bit offset `n` from
the record, bias it by +1 when positive and by −1 otherwise (`jumps += (jumps
> 0 ? 1 : -1)`), `Alu_popk`, then walk `|bias(n)|` links — forward for a
non-negative biased count, backward for a negative one — and raise `OUTJM`
if the cursor walks off either end.  (The older revision in part_000 line 1007
instead biases by +1 unconditionally.) -/
def Alu_jump (instrs : List (List ℕ)) (i : ℕ) (op : ℕ) (s : AluState) : JumpRes :=
  if __Alu_needtojump s op = false then
    { cursor := if i + 1 < instrs.length then some (i + 1) else none
      state := Alu_popk s
      err := none }
  else
    let n : ℤ := bytesint (((instrs.get? i).getD []).drop 1)
    let jumps : ℤ := n + (if 0 < n then 1 else -1)
    let c : Option ℕ :=
      if 0 ≤ jumps then jumpFwd instrs.length jumps.toNat (some i)
      else jumpBwd (-jumps).toNat (some i)
    { cursor := c
      state := Alu_popk s
      err := if c = none then some .OUTJM else none }

/-! ## Interpreter (`__Alu_executeop`, `Alu_execute`, `Alu_start`) -/

/-- The C string extracted by `__Alu_executeop` for arity-3 opcodes:
`strcut(instructions, 1, strlen(instructions + 1) + 1)`, the operand bytes up
to the first NUL. -/
def cstrOf (bytes : List ℕ) : List ℕ := (bytes.map (· % 256)).takeWhile (· ≠ 0)

/-- `__Alu_executeop` (src/alu.c:1000): dispatch one non-jump opcode through
the `F` table, decoding the operand according to the arity column.  Returns
the new state, any output lines, and any raised error; `none` where the C
behaviour is undefined (a NULL function pointer for HALT, an out-of-bounds
`F` read for op ≥ 0x12, invoking `wait`, or the undefined cases of the
individual handlers).  RET and the jump opcodes never reach this function:
`Alu_execute` intercepts them first. -/
def __Alu_executeop (op : ℕ) (r : List ℕ) (s : AluState) :
    Option (AluState × List (List ℕ) × Option AluErr) :=
  match op with
  | 0x07 => some (Alu_pushnumber s (bytesdouble (r.drop 1)), [], none)
  | 0x08 => some (Alu_pushstring s (cstrOf (r.drop 1)), [], none)
  | 0x09 => some (Alu_pushbool s (decide (((r.get? 1).getD 0) % 256 ≠ 0)), [], none)
  | 0x0A =>
    some ((Alu_pushdef s (cstrOf (r.drop 1))).1, [], (Alu_pushdef s (cstrOf (r.drop 1))).2)
  | 0x0B => Option.map (fun p => (p.1, [], p.2)) (Alu_sumstack s)
  | 0x0C => some (Alu_stackclose s, [], none)
  | 0x0D => Option.map (fun p => (p.1, [], p.2)) (Alu_eval s (((r.get? 1).getD 0) % 256))
  | 0x0E => some ((Alu_super s).1, [], (Alu_super s).2)
  | 0x0F => Alu_call s
  | 0x10 =>
    some ((Alu_load s (u32ofInt (bytesint (r.drop 1)))).1, [],
      (Alu_load s (u32ofInt (bytesint (r.drop 1)))).2)
  | 0x11 => Option.map (fun p => (p.1, [], p.2)) (Alu_unload s (u32ofInt (bytesint (r.drop 1))))
  | _ => none

/-- The interpreter loop of `Alu_execute` (src/alu.c:1075).  The cursor walks
the record list; `RET` stops cleanly; jump opcodes 0x02–0x06 run `Alu_jump`
(which moves the cursor itself); every other opcode is dispatched and the
cursor advances one link.  `errno` is never set in the modelled runs (`raise`
does not touch it), so the loop runs until the cursor is NULL.  Output lines
and raised errors are collected in order; the fuel bounds the number of
executed instructions. -/
def executeGo : ℕ → List (List ℕ) → Option ℕ → AluState →
    Option (AluState × List (List ℕ) × List AluErr)
  | 0, _, _, _ => none
  | _ + 1, _, none, s => some (s, [], [])
  | fuel + 1, instrs, some i, s =>
    match instrs.get? i with
    | none => some (s, [], [])
    | some r =>
      if (r.headD 0) % 256 = 1 then some (s, [], [])
      else if 2 ≤ (r.headD 0) % 256 ∧ (r.headD 0) % 256 ≤ 6 then
        Option.map
          (fun p => (p.1, p.2.1, (Alu_jump instrs i ((r.headD 0) % 256) s).err.toList ++ p.2.2))
          (executeGo fuel instrs (Alu_jump instrs i ((r.headD 0) % 256) s).cursor
            (Alu_jump instrs i ((r.headD 0) % 256) s).state)
      else
        match __Alu_executeop ((r.headD 0) % 256) r s with
        | none => none
        | some q =>
          Option.map (fun p => (p.1, q.2.1 ++ p.2.1, q.2.2.toList ++ p.2.2))
            (executeGo fuel instrs (if i + 1 < instrs.length then some (i + 1) else none) q.1)

/-- `Alu_execute` (src/alu.c:1075): run from the head of the instruction
list. -/
def Alu_execute (fuel : ℕ) (instrs : List (List ℕ)) (s : AluState) :
    Option (AluState × List (List ℕ) × List AluErr) :=
  executeGo fuel instrs (if instrs.length = 0 then none else some 0) s

/-- `Alu_start` (src/alu.c:1096): skip the 3-byte signature, decode, and
execute on a fresh state. -/
def Alu_start (fuel : ℕ) (input : List ℕ) :
    Option (AluState × List (List ℕ) × List AluErr) :=
  match Alu_feed (input.drop 3) with
  | none => none
  | some instrs => Alu_execute fuel instrs Alu_newstate

/-! ## Concrete programs from the specification's scenarios -/

/-- Scenario 1 of the specification (arithmetic and print): magic prefix,
`PUSHNUM 40 5F 53 33 33 33 33 34`, `PUSHDEF "print"`, `SUPER`, `CALL`,
`HALT`. -/
def scenarioArith : List ℕ :=
  [0x1B, 0xCA, 0xCA,
   0x07, 0x40, 0x5F, 0x53, 0x33, 0x33, 0x33, 0x33, 0x34,
   0x0A, 0x70, 0x72, 0x69, 0x6E, 0x74, 0x00,
   0x0E, 0x0F, 0x00]

/-- Scenario 4 of the specification (type mismatch): magic prefix,
`PUSHNUM 0`, `PUSHSTR "x"`, `SUMSTACK`, `HALT`. -/
def scenarioTypes : List ℕ :=
  [0x1B, 0xCA, 0xCA,
   0x07, 0x00, 0x00, 0x00, 0x00, 0x00, 0x00, 0x00, 0x00,
   0x08, 0x78, 0x00,
   0x0B, 0x00]

/-! # Theorems

First some shared lemmas about the walk loops and the register scan, then one
theorem (plus counterexample/witness where required) per claim. -/

theorem jumpFwd_of_none (len k : ℕ) : jumpFwd len k none = none := by
  cases k <;> rfl

theorem jumpFwd_of_some (len : ℕ) :
    ∀ k i : ℕ, i < len →
      jumpFwd len k (some i) = if i + k < len then some (i + k) else none := by
  intro k
  induction k with
  | zero => intro i hi; simp [jumpFwd, hi]
  | succ k ih =>
    intro i hi
    by_cases h : i + 1 < len
    · have h2 : i + 1 + k = i + (k + 1) := by omega
      simp only [jumpFwd, if_pos h, ih (i + 1) h, h2]
    · have h2 : ¬(i + (k + 1) < len) := by omega
      simp only [jumpFwd, if_neg h, jumpFwd_of_none, if_neg h2]

theorem jumpBwd_of_none (k : ℕ) : jumpBwd k none = none := by
  cases k <;> rfl

theorem jumpBwd_of_some :
    ∀ k i : ℕ, jumpBwd k (some i) = if k ≤ i then some (i - k) else none := by
  intro k
  induction k with
  | zero => intro i; simp [jumpBwd]
  | succ k ih =>
    intro i
    cases i with
    | zero => simp [jumpBwd, jumpBwd_of_none]
    | succ m =>
      have h1 : (m + 1 : ℕ) ≠ 0 := by omega
      simp only [jumpBwd, if_neg h1]
      rw [show m + 1 - 1 = m by omega, ih m]
      by_cases h3 : k ≤ m
      · rw [if_pos h3, if_pos (show k + 1 ≤ m + 1 by omega)]
        congr 1
        omega
      · rw [if_neg h3, if_neg (show ¬(k + 1 ≤ m + 1) by omega)]

/-! ## C1 — pushing does not place the value at index 0

`Stack_push` appends the new node at the `top`-pointer end of the list, while
`Alu_get`, `Alu_pop` and `Alu_popk` operate from the head, i.e. from the
opposite end.  Pushing therefore inserts at the BOTTOM (index = old depth):
`peek(0)` keeps returning the least recently pushed element, which is also the
one `pop`/`popk` remove.  The claim holds only when the stack was empty before
the push. -/

/-- C1, counterexample: after pushing Number 1 and then Number 2, `peek(0)`
returns 1 (the FIRST push), not the value 2 just pushed, and `popk` removes
the 1, leaving the 2.  The two values genuinely differ. -/
theorem C1_counterexample :
    Alu_get (Alu_pushnumber (Alu_pushnumber Alu_newstate ⟨1, 0⟩) ⟨2, 0⟩) 0 =
      some (AluValue.num ⟨1, 0⟩) ∧
    (AluValue.num ⟨1, 0⟩) ≠ (AluValue.num ⟨2, 0⟩) ∧
    (Alu_popk (Alu_pushnumber (Alu_pushnumber Alu_newstate ⟨1, 0⟩) ⟨2, 0⟩)).stack =
      [AluValue.num ⟨2, 0⟩] ∧
    Dyad.val ⟨1, 0⟩ ≠ Dyad.val ⟨2, 0⟩ := by
  refine ⟨by decide, by decide, by decide, ?_⟩
  simp [Dyad.val]

/-- C1, amended: a push (any of `Alu_pushnumber`/`Alu_pushstring`/
`Alu_pushbool`/`Alu_pushabstract`, which all reduce to `Alu_push`) appends the
value at the BOTTOM of the operand stack: on a previously non-empty stack,
`peek(0)` still returns the old head (the least recently pushed element),
`peek(old depth)` returns the value just pushed, and a subsequent `popk`/`pop`
removes the old head, not the pushed value.  (On a previously empty stack the
pushed value is at index 0.) -/
theorem C1_theorem (s : AluState) (v : AluValue) (h : s.stack ≠ []) :
    Alu_get (Alu_push s v) 0 = s.stack.head? ∧
    Alu_get (Alu_push s v) s.stack.length = some v ∧
    (Alu_popk (Alu_push s v)).stack = s.stack.tail ++ [v] ∧
    (Alu_pop (Alu_push s v)).2 = s.stack.head? := by
  cases hs : s.stack with
  | nil => exact absurd hs h
  | cons a t =>
    refine ⟨?_, ?_, ?_, ?_⟩
    · simp [Alu_get, Alu_push, Stack_push, hs]
    · simp only [Alu_get, Alu_push, Stack_push, hs]
      exact List.get?_concat_length (a :: t) v
    · simp [Alu_popk, Alu_push, Stack_push, hs]
    · simp [Alu_pop, Alu_push, Stack_push, hs]

/-- C1, witness for the amended theorem at a concrete non-empty stack. -/
theorem C1_witness :
    (AluState.stack ⟨none, [.str (strBytes "a")], [], []⟩ ≠ []) ∧
    (Alu_get (Alu_push ⟨none, [.str (strBytes "a")], [], []⟩ (.bool true)) 0 =
      (AluState.stack ⟨none, [.str (strBytes "a")], [], []⟩).head? ∧
    Alu_get (Alu_push ⟨none, [.str (strBytes "a")], [], []⟩ (.bool true))
        (AluState.stack ⟨none, [.str (strBytes "a")], [], []⟩).length = some (.bool true) ∧
    (Alu_popk (Alu_push ⟨none, [.str (strBytes "a")], [], []⟩ (.bool true))).stack =
      (AluState.stack ⟨none, [.str (strBytes "a")], [], []⟩).tail ++ [.bool true] ∧
    (Alu_pop (Alu_push ⟨none, [.str (strBytes "a")], [], []⟩ (.bool true))).2 =
      (AluState.stack ⟨none, [.str (strBytes "a")], [], []⟩).head?) :=
  ⟨by decide, C1_theorem ⟨none, [.str (strBytes "a")], [], []⟩ (.bool true) (by decide)⟩

/-! ## C2 — a taken jump with offset 0 walks one link BACKWARD

`Alu_jump` biases the decoded offset by `jumps += (jumps > 0 ? 1 : -1)`, so an
offset of 0 becomes −1 and the cursor walks one link toward `previous`,
re-executing the preceding instruction (or raising `OUTJM` at the head) —
it does not skip the next instruction. -/

/-- C2, counterexample: a taken `JMP 0` at cursor index 1 moves the cursor to
index 0 (one link backward), not forward past the next instruction (index 2
under the claim's "walks |n|+1 = 1 link forward", index 3 under its "skips
exactly the next instruction"). -/
theorem C2_counterexample :
    (Alu_jump [[1], [2, 0, 0, 0, 0], [1], [1]] 1 2 Alu_newstate).cursor = some 0 ∧
    (Alu_jump [[1], [2, 0, 0, 0, 0], [1], [1]] 1 2 Alu_newstate).cursor ≠ some 2 ∧
    (Alu_jump [[1], [2, 0, 0, 0, 0], [1], [1]] 1 2 Alu_newstate).cursor ≠ some 3 ∧
    (Alu_jump [[1], [2, 0, 0, 0, 0], [1], [1]] 1 2 Alu_newstate).err = none := by
  refine ⟨by decide, by decide, by decide, by decide⟩

/-- C2, amended: a taken jump with decoded signed offset `n` walks exactly
`|n| + 1` links — forward if `n > 0`, and BACKWARD if `n ≤ 0` (offset 0
included).  The condition is consumed with `popk`, and `OUTJM` is raised
exactly when the walk runs off either end of the instruction list. -/
theorem C2_theorem (instrs : List (List ℕ)) (i op b0 b1 b2 b3 : ℕ) (s : AluState)
    (hrec : instrs.get? i = some [op, b0, b1, b2, b3])
    (htaken : __Alu_needtojump s op = true) :
    (Alu_jump instrs i op s).state = Alu_popk s ∧
    (Alu_jump instrs i op s).cursor =
      (if 0 < bytesint [b0, b1, b2, b3] then
        (if i + ((bytesint [b0, b1, b2, b3]).toNat + 1) < instrs.length then
          some (i + ((bytesint [b0, b1, b2, b3]).toNat + 1))
         else none)
       else
        (if (bytesint [b0, b1, b2, b3]).natAbs + 1 ≤ i then
          some (i - ((bytesint [b0, b1, b2, b3]).natAbs + 1))
         else none)) ∧
    (Alu_jump instrs i op s).err =
      (if (Alu_jump instrs i op s).cursor = none then some AluErr.OUTJM else none) := by
  have hi : i < instrs.length := by
    by_contra hge
    rw [List.get?_eq_none.mpr (by omega)] at hrec
    exact Option.noConfusion hrec
  have hbytes : ((instrs.get? i).getD []).drop 1 = [b0, b1, b2, b3] := by
    rw [hrec]; rfl
  have hneed : ¬(__Alu_needtojump s op = false) := by simp [htaken]
  unfold Alu_jump
  rw [if_neg hneed]
  simp only [hbytes]
  set n : ℤ := bytesint [b0, b1, b2, b3] with hn
  by_cases hpos : 0 < n
  · simp only [if_pos hpos]
    have hge : (0 : ℤ) ≤ n + 1 := by omega
    have htn : (n + 1).toNat = n.toNat + 1 := by omega
    simp only [if_pos hge, htn, jumpFwd_of_some instrs.length (n.toNat + 1) i hi]
    refine ⟨trivial, trivial, ?_⟩
    by_cases hc : i + (n.toNat + 1) < instrs.length <;> simp [hc]
  · simp only [if_neg hpos]
    have hlt : ¬((0 : ℤ) ≤ n + -1) := by omega
    have htn : (-(n + -1)).toNat = n.natAbs + 1 := by omega
    simp only [if_neg hlt, htn, jumpBwd_of_some (n.natAbs + 1) i]
    refine ⟨trivial, trivial, ?_⟩
    by_cases hc : n.natAbs + 1 ≤ i <;> simp [hc]

/-- C2, witness for the amended theorem: a taken `JMP 1` at index 3 of a
six-record list walks two links forward to index 5. -/
theorem C2_witness :
    (Alu_jump [[1], [1], [1], [2, 0, 0, 0, 1], [1], [1]] 3 2 Alu_newstate).state =
      Alu_popk Alu_newstate ∧
    (Alu_jump [[1], [1], [1], [2, 0, 0, 0, 1], [1], [1]] 3 2 Alu_newstate).cursor =
      (if 0 < bytesint [0, 0, 0, 1] then
        (if 3 + ((bytesint [0, 0, 0, 1]).toNat + 1) <
            ([[1], [1], [1], [2, 0, 0, 0, 1], [1], [1]] : List (List ℕ)).length then
          some (3 + ((bytesint [0, 0, 0, 1]).toNat + 1))
         else none)
       else
        (if (bytesint [0, 0, 0, 1]).natAbs + 1 ≤ 3 then
          some (3 - ((bytesint [0, 0, 0, 1]).natAbs + 1))
         else none)) ∧
    (Alu_jump [[1], [1], [1], [2, 0, 0, 0, 1], [1], [1]] 3 2 Alu_newstate).err =
      (if (Alu_jump [[1], [1], [1], [2, 0, 0, 0, 1], [1], [1]] 3 2 Alu_newstate).cursor = none
       then some AluErr.OUTJM else none) :=
  C2_theorem [[1], [1], [1], [2, 0, 0, 0, 1], [1], [1]] 3 2 0 0 0 1 Alu_newstate
    (by decide) (by decide)

/-! ## C10 — CALL on an empty stack raises NOSTK -/

/-- C10, confirmed: `Alu_call` on a state with an empty operand stack raises
`NOSTK` (not `TYPES`), invokes no function (no output), and returns the state
unchanged — stack, garbage list and register bank included. -/
theorem C10_theorem (s : AluState) (h : s.stack = []) :
    Alu_call s = some (s, [], some AluErr.NOSTK) := by
  unfold Alu_call
  rw [h]

/-- C10, witness at a state with non-trivial garbage and registers. -/
theorem C10_witness :
    (AluState.stack ⟨none, [], [.num ⟨3, 0⟩], [⟨5, some (.bool true)⟩]⟩ = []) ∧
    Alu_call ⟨none, [], [.num ⟨3, 0⟩], [⟨5, some (.bool true)⟩]⟩ =
      some (⟨none, [], [.num ⟨3, 0⟩], [⟨5, some (.bool true)⟩]⟩, [], some AluErr.NOSTK) :=
  ⟨rfl, C10_theorem ⟨none, [], [.num ⟨3, 0⟩], [⟨5, some (.bool true)⟩]⟩ rfl⟩

/-! ## C3 — SUMSTACK -/

/-- C3, confirmed: `Alu_sumstack` raises `STKLN` and changes nothing when the
stack has fewer than two items; with two same-tag operands `a = peek(0)`,
`b = peek(1)` it clears the WHOLE stack and pushes the single result — the
arithmetic sum for Number+Number, a Bool that is true iff the numeric coercion
of `a + b` is non-zero for Bool+Bool, the concatenation `a` then `b` for
String+String; and any tag mismatch raises `TYPES` and changes nothing. -/
theorem C3_theorem (s : AluState) :
    (s.stack.length < 2 → Alu_sumstack s = some (s, some AluErr.STKLN)) ∧
    (∀ x y rest, s.stack = .num x :: .num y :: rest →
      Alu_sumstack s = some ({ s with stack := [.num (dyadAdd x y)] }, none)) ∧
    (∀ b1 b2 rest, s.stack = .bool b1 :: .bool b2 :: rest →
      Alu_sumstack s =
        some ({ s with stack := [.bool (decide (b1.toNat + b2.toNat ≠ 0))] }, none)) ∧
    (∀ x y rest, s.stack = .str x :: .str y :: rest →
      Alu_sumstack s = some ({ s with stack := [.str (x ++ y)] }, none)) ∧
    (∀ a b rest, s.stack = a :: b :: rest → a.typeOf ≠ b.typeOf →
      Alu_sumstack s = some (s, some AluErr.TYPES)) := by
  refine ⟨?_, ?_, ?_, ?_, ?_⟩
  · intro hlen
    cases hs : s.stack with
    | nil => simp [Alu_sumstack, hs]
    | cons a t =>
      cases ht : t with
      | nil => simp [Alu_sumstack, hs, ht]
      | cons b r =>
        rw [hs, ht] at hlen
        simp at hlen
        omega
  · intro x y rest hs
    simp [Alu_sumstack, hs, AluValue.typeOf, Alu_sumvar, Alu_push, Alu_stackclose, Stack_push]
  · intro b1 b2 rest hs
    simp [Alu_sumstack, hs, AluValue.typeOf, Alu_sumvar, Alu_push, Alu_stackclose, Stack_push]
  · intro x y rest hs
    simp [Alu_sumstack, hs, AluValue.typeOf, Alu_sumvar, Alu_push, Alu_stackclose, Stack_push]
  · intro a b rest hs hne
    simp [Alu_sumstack, hs, hne]

/-- C3, witness: one concrete instance for each of the five cases. -/
theorem C3_witness :
    Alu_sumstack ⟨none, [.num ⟨2, 0⟩], [], []⟩ =
      some (⟨none, [.num ⟨2, 0⟩], [], []⟩, some AluErr.STKLN) ∧
    Alu_sumstack ⟨none, [.num ⟨2, 0⟩, .num ⟨3, 1⟩], [], []⟩ =
      some (⟨none, [.num (dyadAdd ⟨2, 0⟩ ⟨3, 1⟩)], [], []⟩, none) ∧
    Alu_sumstack ⟨none, [.bool true, .bool false, .num ⟨9, 0⟩], [], []⟩ =
      some (⟨none, [.bool (decide (Bool.toNat true + Bool.toNat false ≠ 0))], [], []⟩, none) ∧
    Alu_sumstack ⟨none, [.str (strBytes "ab"), .str (strBytes "cd")], [], []⟩ =
      some (⟨none, [.str (strBytes "ab" ++ strBytes "cd")], [], []⟩, none) ∧
    Alu_sumstack ⟨none, [.num ⟨1, 0⟩, .str (strBytes "x")], [], []⟩ =
      some (⟨none, [.num ⟨1, 0⟩, .str (strBytes "x")], [], []⟩, some AluErr.TYPES) :=
  ⟨(C3_theorem _).1 (by decide),
   (C3_theorem _).2.1 ⟨2, 0⟩ ⟨3, 1⟩ [] rfl,
   (C3_theorem _).2.2.1 true false [.num ⟨9, 0⟩] rfl,
   (C3_theorem _).2.2.2.1 (strBytes "ab") (strBytes "cd") [] rfl,
   (C3_theorem _).2.2.2.2 (.num ⟨1, 0⟩) (.str (strBytes "x")) [] rfl (by decide)⟩

/-! ## C6 — EVAL compares through an 8-bit truncation, not the true sign

`Alu_eval` stores the double difference `a - b` into an `int8_t`, so any
difference that truncates to a multiple of 256 aliases to "equal". -/

/-- C6, counterexample: with `a = peek(0) = 256`, `b = peek(1) = 0` and the
`EVAL_GREATER` operand 4, the VM pushes Bool FALSE even though `a > b` as
doubles (the difference 256 wraps to 0, so only the equality bit is set). -/
theorem C6_counterexample :
    Alu_eval ⟨none, [.num ⟨256, 0⟩, .num ⟨0, 0⟩], [], []⟩ 4 =
      some (⟨none, [.bool false], [], []⟩, none) ∧
    Dyad.val ⟨0, 0⟩ < Dyad.val ⟨256, 0⟩ ∧
    AluValue.bool false ≠ AluValue.bool true := by
  refine ⟨by decide, ?_, by decide⟩
  norm_num [Dyad.val]

/-- C6, amended: for Number operands `a = peek(0)`, `b = peek(1)`, EVAL builds
its mask from the `int8_t`-wrapped truncation `w` of the double difference
`a − b` (bit 0 iff `w = 0`, bit 1 iff `w < 0`, bit 2 iff `w > 0`) — not from
the true sign of `a − b` — clears the stack, and pushes
`Bool (mask AND operand ≠ 0)`. -/
theorem C6_theorem (s : AluState) (x y : Dyad) (rest : List AluValue) (mask : ℕ)
    (hs : s.stack = .num x :: .num y :: rest) :
    Alu_eval s mask =
      some ({ s with stack :=
        [.bool (decide (((if cInt8OfDouble (dyadSub x y) = 0 then 1 else 0) |||
          (if cInt8OfDouble (dyadSub x y) < 0 then 2
           else if 0 < cInt8OfDouble (dyadSub x y) then 4 else 0)) &&& mask ≠ 0))] },
        none) := by
  simp [Alu_eval, hs, AluValue.typeOf, evalMask, Alu_pushbool, Alu_push, Alu_stackclose,
    Stack_push]

/-- C6, witness for the amended theorem: `3 > 1` with the `EVAL_GREATER`
operand. -/
theorem C6_witness :
    Alu_eval ⟨none, [.num ⟨3, 0⟩, .num ⟨1, 0⟩], [], []⟩ 4 =
      some (⟨none, [.bool (decide (((if cInt8OfDouble (dyadSub ⟨3, 0⟩ ⟨1, 0⟩) = 0 then 1 else 0) |||
        (if cInt8OfDouble (dyadSub ⟨3, 0⟩ ⟨1, 0⟩) < 0 then 2
         else if 0 < cInt8OfDouble (dyadSub ⟨3, 0⟩ ⟨1, 0⟩) then 4 else 0)) &&& 4 ≠ 0))], [], []⟩,
        none) :=
  C6_theorem ⟨none, [.num ⟨3, 0⟩, .num ⟨1, 0⟩], [], []⟩ ⟨3, 0⟩ ⟨1, 0⟩ [] 4 rfl

/-! ## C7 — the decoder stops on `op > END`, not `op ≥ END`

`Alu_feed` breaks on `(op == OP_HALT) or (op > OP_END)`; the sentinel 0x13
itself does NOT stop the decoder — the loop proceeds and reads the operand
width from `F[0x13]`, beyond the end of the opcode table. -/

/-- One unfolding step of `feedLoop` on a non-empty buffer. -/
theorem feedLoop_cons (fuel b : ℕ) (rest : List ℕ) :
    feedLoop (fuel + 1) (b :: rest) =
      (if b % 256 = 0 ∨ 0x13 < b % 256 then some []
       else
        match __Alu_readop (b % 256) (b :: rest) with
        | none => none
        | some readlen =>
          if readlen + 1 ≤ (b :: rest).length then
            (feedLoop fuel (List.drop (readlen + 1) (b :: rest))).map
              (List.take (readlen + 1) (b :: rest) :: ·)
          else none) := rfl

/-- C7, counterexample: a buffer whose next opcode byte is 0x13 (`OP_END`)
does NOT make the decoder halt there with no record: the stop test
`op == 0 or op > 0x13` is false at 0x13, and the loop instead continues into
an out-of-bounds read of the opcode table (modelled as `none`).  Bytes 0x14
and 0x00 do stop the decoder. -/
theorem C7_counterexample :
    Alu_feed [0x13] ≠ some [] ∧
    Alu_feed [0x13] = none ∧
    Alu_feed [0x14] = some [] ∧
    Alu_feed [0x00] = some [] := by
  refine ⟨by decide, by decide, by decide, by decide⟩

/-- C7, amended: the decoder stops emitting records, with no record for the
current byte, exactly when the opcode byte equals `HALT` (0x00) or is
STRICTLY greater than `END` (0x13). -/
theorem C7_theorem (op : ℕ) (rest : List ℕ) (hop : op < 256) :
    Alu_feed (op :: rest) = some [] ↔ (op = 0 ∨ 0x13 < op) := by
  have hmod : op % 256 = op := Nat.mod_eq_of_lt hop
  have hfeed : Alu_feed (op :: rest) = feedLoop (rest.length + 1 + 1) (op :: rest) := rfl
  rw [hfeed, feedLoop_cons, hmod]
  constructor
  · intro h
    by_contra hcon
    rw [if_neg hcon] at h
    rcases hro : __Alu_readop op (op :: rest) with _ | rl <;> rw [hro] at h
    · simp at h
    · simp only at h
      by_cases hle : rl + 1 ≤ (op :: rest).length
      · rw [if_pos hle] at h
        rcases hfl : feedLoop (rest.length + 1) (List.drop (rl + 1) (op :: rest)) with _ | l <;>
          rw [hfl] at h <;> simp at h
      · rw [if_neg hle] at h
        simp at h
  · intro h
    rw [if_pos h]

/-- C7, witness for the amended theorem at opcode byte 0x14. -/
theorem C7_witness :
    (0x14 : ℕ) < 256 ∧
    (Alu_feed [0x14, 1, 2, 3] = some [] ↔ ((0x14 : ℕ) = 0 ∨ 0x13 < (0x14 : ℕ))) :=
  ⟨by decide, C7_theorem 0x14 [1, 2, 3] (by decide)⟩

/-! ## C8 — DEFUNLOAD removes the head register, not the matched one

`Alu_defunload` walks the register list to find the variable with the
requested index, pushes it, but then unlinks `A->regs` — the HEAD of the
list — instead of the node it found.  The source's own comment says it
"removes the register value", so the claim matches the intent and the code is
the slip. -/

/-- C8, evaluation at the failing input: with register bank
`[(0 ↦ 1), (1 ↦ 2)]` (pair 0 at the head), `DEFUNLOAD 1` pushes the value 2
but deletes the pair with index 0, leaving the pair with index 1 still
present (with its value now aliased by the stack entry). -/
theorem C8_theorem :
    Alu_defunload ⟨none, [], [], [⟨0, some (.num ⟨1, 0⟩)⟩, ⟨1, some (.num ⟨2, 0⟩)⟩]⟩ 1 =
      (⟨none, [.num ⟨2, 0⟩], [], [⟨1, some (.num ⟨2, 0⟩)⟩]⟩, none) ∧
    (([⟨1, some (.num ⟨2, 0⟩)⟩] : List AluReg).find? (fun r => r.index = 0) = none) ∧
    (([⟨1, some (.num ⟨2, 0⟩)⟩] : List AluReg).find? (fun r => r.index = 1) =
      some ⟨1, some (.num ⟨2, 0⟩)⟩) ∧
    Alu_defunload ⟨none, [], [], [⟨0, some (.num ⟨1, 0⟩)⟩, ⟨1, some (.num ⟨2, 0⟩)⟩]⟩ 7 =
      (⟨none, [], [], [⟨0, some (.num ⟨1, 0⟩)⟩, ⟨1, some (.num ⟨2, 0⟩)⟩]⟩, some AluErr.NOREG) := by
  refine ⟨by decide, by decide, by decide, by decide⟩

/-! ## C9 — LOAD then UNLOAD restores the top only for payload-carrying tags

`Alu_cpyvar` returns NULL for an `Abstract` (its payload size is 0), so
`LOAD k` on an Abstract top stores a NULL register slot and the following
`UNLOAD k` raises `NOREG`, leaving the stack empty. -/

theorem find_replaceFirstReg (k : ℕ) (v : Option AluValue) :
    ∀ regs regs1 : List AluReg, replaceFirstReg regs k v = some regs1 →
      regs1.find? (fun r => r.index = k) = some ⟨k, v⟩ := by
  intro regs
  induction regs with
  | nil => intro regs1 h; exact Option.noConfusion h
  | cons r rs ih =>
    intro regs1 h
    obtain ⟨ri, rv⟩ := r
    by_cases hr : ri = k
    · subst hr
      rw [replaceFirstReg, if_pos rfl] at h
      cases h
      simp [List.find?]
    · rw [replaceFirstReg, if_neg hr] at h
      rcases hrs : replaceFirstReg rs k v with _ | rs1 <;> rw [hrs] at h
      · exact Option.noConfusion h
      · cases h
        rw [List.find?_cons_of_neg _ (by simp [hr])]
        exact ih rs1 hrs

theorem find_pushReg (k : ℕ) (v : Option AluValue) :
    ∀ regs : List AluReg, replaceFirstReg regs k v = none →
      (Stack_push regs (⟨k, v⟩ : AluReg)).find? (fun r => r.index = k) = some ⟨k, v⟩ := by
  intro regs
  induction regs with
  | nil =>
    intro _
    simp [Stack_push, List.find?]
  | cons r rs ih =>
    intro h
    obtain ⟨ri, rv⟩ := r
    by_cases hr : ri = k
    · subst hr
      rw [replaceFirstReg, if_pos rfl] at h
      exact Option.noConfusion h
    · rw [replaceFirstReg, if_neg hr] at h
      have h2 : replaceFirstReg rs k v = none := by
        rcases hrs : replaceFirstReg rs k v with _ | rs1
        · rfl
        · rw [hrs] at h
          exact Option.noConfusion h
      have hcons : Stack_push ((⟨ri, rv⟩ : AluReg) :: rs) (⟨k, v⟩ : AluReg) =
          (⟨ri, rv⟩ : AluReg) :: Stack_push rs ⟨k, v⟩ := by
        simp [Stack_push]
      rw [hcons, List.find?_cons_of_neg _ (by simp [hr])]
      exact ih h2

/-- C9, counterexample: with the Abstract `print` on top of the stack,
`LOAD 0` stores a NULL slot (the deep copy of an Abstract is NULL) and
`UNLOAD 0` then raises `NOREG`; the final stack is empty, so no value equal to
the original top is restored. -/
theorem C9_counterexample :
    Alu_load ⟨none, [.abstract .print], [], []⟩ 0 = (⟨none, [], [], [⟨0, none⟩]⟩, none) ∧
    Alu_unload (⟨none, [], [], [⟨0, none⟩]⟩ : AluState) 0 =
      some (⟨none, [], [], [⟨0, none⟩]⟩, some AluErr.NOREG) := by
  refine ⟨by decide, by decide⟩

/-- C9, amended: for a non-empty stack whose top `v` is a Number, Bool or
String (any tag except Abstract), `LOAD k` followed by `UNLOAD k` succeeds and
leaves a stack whose single element — its top — equals `v` (same tag, equal
payload, through two deep copies). -/
theorem C9_theorem (s : AluState) (v : AluValue) (rest : List AluValue) (k : ℕ)
    (hs : s.stack = v :: rest) (hv : v.typeOf ≠ .tAbstract) :
    (Alu_load s k).2 = none ∧
    Alu_unload (Alu_load s k).1 k = some ({ (Alu_load s k).1 with stack := [v] }, none) := by
  have hcpy : Alu_cpyvar v = some v := by
    cases v with
    | num d => rfl
    | str t => rfl
    | bool b => rfl
    | abstract f => exact absurd rfl hv
  have hload : Alu_load s k =
      (match replaceFirstReg s.regs k (some v) with
        | some regs1 => ({ s with stack := [], regs := regs1 }, none)
        | none =>
          ({ s with stack := [], regs := Stack_push s.regs (⟨k, some v⟩ : AluReg) }, none)) := by
    unfold Alu_load
    rw [hs]
    simp only [hcpy]
  rcases hrep : replaceFirstReg s.regs k (some v) with _ | regs1 <;> rw [hrep] at hload
  · rw [hload]
    have hfind := find_pushReg k (some v) s.regs hrep
    refine ⟨rfl, ?_⟩
    unfold Alu_unload
    rw [hfind]
    simp [hcpy, Stack_push]
  · rw [hload]
    have hfind := find_replaceFirstReg k (some v) s.regs regs1 hrep
    refine ⟨rfl, ?_⟩
    unfold Alu_unload
    rw [hfind]
    simp [hcpy, Stack_push]

/-- C9, witness for the amended theorem: a Number top and an already-occupied
register bank (the replace branch of `Alu_load`). -/
theorem C9_witness :
    (Alu_load ⟨none, [.num ⟨7, 0⟩, .bool true], [], [⟨2, some (.str (strBytes "q"))⟩]⟩ 2).2 =
      none ∧
    Alu_unload (Alu_load ⟨none, [.num ⟨7, 0⟩, .bool true], [], [⟨2, some (.str (strBytes "q"))⟩]⟩ 2).1 2 =
      some
        ({ (Alu_load ⟨none, [.num ⟨7, 0⟩, .bool true], [], [⟨2, some (.str (strBytes "q"))⟩]⟩ 2).1
            with stack := [.num ⟨7, 0⟩] }, none) :=
  C9_theorem ⟨none, [.num ⟨7, 0⟩, .bool true], [], [⟨2, some (.str (strBytes "q"))⟩]⟩
    (.num ⟨7, 0⟩) [.bool true] 2 rfl (by decide)

/-! ## C4 — the arithmetic-and-print scenario prints "125.3", not "125.300000"

The double `0x405F533333333334` is `8817203645461300 / 2^46 =
125.3000000000000042...`; its fractional part yields the single digit 3 on the
first pass of the `__Alu_ntoa_infos` fraction loop, and every later pass sees
a next digit of 0, so `part[2] *= 1` and nothing is appended: `part[2] = 3`
and the printed string is `125.3`.  (Every IEEE-754 operation in this trace is
exact — each intermediate value is representable — so the exact dyadic model
coincides with the hardware arithmetic here.) -/

/-- C4, counterexample: running the scenario bytecode prints the single line
`125.3`, not `125.300000`. -/
theorem C4_counterexample :
    (Alu_start 20 scenarioArith).map (fun r => r.2.1) = some [strBytes "125.3"] ∧
    strBytes "125.3" ≠ strBytes "125.300000" := by
  refine ⟨by decide, by decide⟩

/-- C4, amended: the scenario writes exactly the line `125.3` to stdout
(`puts` appends the newline), raises no error, and leaves the operand stack
empty (the popped `print` Abstract sits in the garbage list). -/
theorem C4_theorem :
    Alu_start 20 scenarioArith =
      some (⟨none, [], [.abstract .print], []⟩, [strBytes "125.3"], []) := by
  decide

/-! ## C5 — `Alu_close` returns 0 even after VM errors

`raise` only prints a diagnostic; no VM operation assigns the state's `error`
field, and `Alu_close` returns non-zero only for a NULL state or a set `error`
field.  A program that raises `TYPES` therefore still exits with status 0. -/

theorem popk_error (s : AluState) : (Alu_popk s).error = s.error := rfl

theorem jump_state_error (instrs : List (List ℕ)) (i op : ℕ) (s : AluState) :
    (Alu_jump instrs i op s).state.error = s.error := by
  unfold Alu_jump
  split_ifs <;> rfl

theorem pushdef_error (s : AluState) (name : List ℕ) :
    (Alu_pushdef s name).1.error = s.error := by
  unfold Alu_pushdef
  split_ifs <;> rfl

theorem super_error (s : AluState) : (Alu_super s).1.error = s.error := by
  unfold Alu_super
  split_ifs <;> rfl

theorem load_error (s : AluState) (k : ℕ) : (Alu_load s k).1.error = s.error := by
  unfold Alu_load
  repeat' split
  all_goals rfl

theorem sumstack_error (s s1 : AluState) (e : Option AluErr)
    (h : Alu_sumstack s = some (s1, e)) : s1.error = s.error := by
  unfold Alu_sumstack at h
  repeat' split at h
  all_goals
    first
      | exact Option.noConfusion h
      | (simp only [Option.some.injEq, Prod.mk.injEq] at h
         rw [← h.1]
         try simp [Alu_push, Alu_stackclose, Stack_push])

theorem eval_error (s : AluState) (ev : ℕ) (s1 : AluState) (e : Option AluErr)
    (h : Alu_eval s ev = some (s1, e)) : s1.error = s.error := by
  unfold Alu_eval at h
  repeat' split at h
  all_goals
    first
      | exact Option.noConfusion h
      | (simp only [Option.some.injEq, Prod.mk.injEq] at h
         rw [← h.1]
         try simp [Alu_pushbool, Alu_push, Alu_stackclose, Stack_push])

theorem unload_error (s : AluState) (k : ℕ) (s1 : AluState) (e : Option AluErr)
    (h : Alu_unload s k = some (s1, e)) : s1.error = s.error := by
  unfold Alu_unload at h
  repeat' split at h
  all_goals
    first
      | exact Option.noConfusion h
      | (simp only [Option.some.injEq, Prod.mk.injEq] at h
         rw [← h.1]
         try simp [Stack_push])

theorem call_error (s : AluState) (s1 : AluState) (out : List (List ℕ)) (e : Option AluErr)
    (h : Alu_call s = some (s1, out, e)) : s1.error = s.error := by
  unfold Alu_call at h
  split at h
  · simp only [Option.some.injEq, Prod.mk.injEq] at h
    rw [← h.1]
  · rename_i rest heq
    simp only [Alu_print] at h
    rcases hpl : printLoop rest with _ | outs <;> rw [hpl] at h
    · simp at h
    · simp only [Option.map_some', Option.some.injEq, Prod.mk.injEq] at h
      rw [← h.1]
  · exact Option.noConfusion h
  · simp only [Option.some.injEq, Prod.mk.injEq] at h
    rw [← h.1]

theorem executeop_error (op : ℕ) (r : List ℕ) (s s1 : AluState) (out : List (List ℕ))
    (e : Option AluErr) (h : __Alu_executeop op r s = some (s1, out, e)) :
    s1.error = s.error := by
  unfold __Alu_executeop at h
  split at h
  · simp only [Option.some.injEq, Prod.mk.injEq] at h
    rw [← h.1]
    rfl
  · simp only [Option.some.injEq, Prod.mk.injEq] at h
    rw [← h.1]
    rfl
  · simp only [Option.some.injEq, Prod.mk.injEq] at h
    rw [← h.1]
    rfl
  · simp only [Option.some.injEq, Prod.mk.injEq] at h
    rw [← h.1]
    exact pushdef_error s _
  · rcases hss : Alu_sumstack s with _ | p <;> rw [hss] at h
    · exact Option.noConfusion h
    · simp only [Option.map_some', Option.some.injEq, Prod.mk.injEq] at h
      rw [← h.1]
      exact sumstack_error s p.1 p.2 (by rw [hss])
  · simp only [Option.some.injEq, Prod.mk.injEq] at h
    rw [← h.1]
    rfl
  · rcases hev : Alu_eval s (((r.get? 1).getD 0) % 256) with _ | p <;> rw [hev] at h
    · exact Option.noConfusion h
    · simp only [Option.map_some', Option.some.injEq, Prod.mk.injEq] at h
      rw [← h.1]
      exact eval_error s _ p.1 p.2 (by rw [hev])
  · simp only [Option.some.injEq, Prod.mk.injEq] at h
    rw [← h.1]
    exact super_error s
  · exact call_error s s1 out e h
  · simp only [Option.some.injEq, Prod.mk.injEq] at h
    rw [← h.1]
    exact load_error s _
  · rcases hun : Alu_unload s (u32ofInt (bytesint (r.drop 1))) with _ | p <;> rw [hun] at h
    · exact Option.noConfusion h
    · simp only [Option.map_some', Option.some.injEq, Prod.mk.injEq] at h
      rw [← h.1]
      exact unload_error s _ p.1 p.2 (by rw [hun])
  · exact Option.noConfusion h

theorem executeGo_error :
    ∀ (fuel : ℕ) (instrs : List (List ℕ)) (cur : Option ℕ) (s : AluState)
      (res : AluState × List (List ℕ) × List AluErr),
      executeGo fuel instrs cur s = some res → res.1.error = s.error := by
  intro fuel
  induction fuel with
  | zero => intro instrs cur s res h; exact Option.noConfusion h
  | succ f ih =>
    intro instrs cur s res h
    rcases cur with _ | i
    · simp only [executeGo, Option.some.injEq] at h
      rw [← h]
    · unfold executeGo at h
      split at h
      · simp only [Option.some.injEq] at h
        rw [← h]
      · rename_i r heq
        split at h
        · simp only [Option.some.injEq] at h
          rw [← h]
        · split at h
          · rcases hgo : executeGo f instrs
                (Alu_jump instrs i ((r.headD 0) % 256) s).cursor
                (Alu_jump instrs i ((r.headD 0) % 256) s).state with _ | p <;> rw [hgo] at h
            · exact Option.noConfusion h
            · simp only [Option.map_some', Option.some.injEq] at h
              rw [← h]
              have h1 := ih instrs _ _ p hgo
              rw [show p.1.error = (Alu_jump instrs i ((r.headD 0) % 256) s).state.error from h1,
                jump_state_error]
          · split at h
            · exact Option.noConfusion h
            · rename_i q hop
              rcases hgo : executeGo f instrs
                  (if i + 1 < instrs.length then some (i + 1) else none) q.1 with _ | p <;>
                rw [hgo] at h
              · exact Option.noConfusion h
              · simp only [Option.map_some', Option.some.injEq] at h
                rw [← h]
                have h1 := ih instrs _ _ p hgo
                have h2 := executeop_error ((r.headD 0) % 256) r s q.1 q.2.1 q.2.2 (by rw [hop])
                simp only [h1, h2]

/-- C5, counterexample: running the type-mismatch scenario raises exactly the
VM error `TYPES` (from SUMSTACK on a Number and a String), yet the subsequent
close of the state returns status 0, not the non-zero status the claim
requires. -/
theorem C5_counterexample :
    (Alu_start 20 scenarioTypes).map (fun r => (Alu_close (some r.1), r.2.2)) =
      some (0, [AluErr.TYPES]) ∧ (0 : ℕ) ≠ 1 := by
  refine ⟨by decide, by decide⟩

/-- C5, amended: no VM operation ever sets the state's `error` field, so for
EVERY program and fuel bound, if execution completes in the model then closing
the final state returns 0 — regardless of how many VM errors were raised on
the way.  `Alu_close` returns non-zero only for a NULL state pointer (or an
`error` field set by some external writer). -/
theorem C5_theorem (fuel : ℕ) (input : List ℕ)
    (res : AluState × List (List ℕ) × List AluErr)
    (h : Alu_start fuel input = some res) : Alu_close (some res.1) = 0 := by
  unfold Alu_start at h
  rcases hf : Alu_feed (input.drop 3) with _ | instrs <;> rw [hf] at h
  · exact Option.noConfusion h
  · unfold Alu_execute at h
    have herr : res.1.error = Alu_newstate.error := executeGo_error fuel instrs _ Alu_newstate res h
    show (if res.1.error.isSome then 1 else 0) = 0
    rw [herr]
    rfl

/-- C5, witness: the amended theorem applied to the type-mismatch scenario. -/
theorem C5_witness :
    Alu_close (some (⟨none, [.num ⟨0, 1074⟩, .str (strBytes "x")], [], []⟩ : AluState)) = 0 :=
  C5_theorem 20 scenarioTypes
    (⟨none, [.num ⟨0, 1074⟩, .str (strBytes "x")], [], []⟩, [], [AluErr.TYPES]) (by decide)

end Alu
